import Mathlib

/-!
Shallow embedding of `scripts/data_analysis.py` from the BMW-Sales-Data-Analysis
repository, together with proofs about its four public operations:
`calculate_market_metrics`, `analyze_regional_performance`,
`calculate_time_series_metrics` and `segment_customer_base`.

Modelling conventions:
- A dataframe is a list of typed rows plus the list of column names actually
  present; `_ensure_columns` validation is checked against the column-name list.
- Floating-point numbers are modelled as rationals (`ℚ`); the NaN produced by
  pandas for structurally missing data (empty pivot cells, the first entry of a
  percent-change series, the mean of an all-NaN series) is modelled as `none`
  in an `Option ℚ`.  Theorems about division formulas carry explicit
  nonzero-denominator hypotheses where float and rational division differ.
- `groupby` sorts its keys, so key lists are deduplicated and sorted.
- pandas ranking with method=first has documented deterministic tie semantics
  and is modelled directly; `sort_values` with the default kind=quicksort is
  documented as not stable, so its tie order among equal keys is
  implementation-defined — the embedding uses `List.insertionSort` as one
  executable refinement of a descending sort, and no theorem below depends on
  the tie order this particular refinement happens to produce.
- Exceptions are modelled with `Except`; the only raisable errors are the
  validation errors (`DataAnalysisError` in the source), because every
  computation step of the source is total on validated input.
-/

namespace BMW

/-- One row of the sales table, with the columns used by `data_analysis.py`.
Field names keep the source column names. -/
structure SalesRow where
  Model : String
  Year : Int
  Region : String
  Market_Segment : String
  Sales_Volume : ℚ
  Price_USD : ℚ
  Customer_ID : Int
  Vehicle_Type : String
  Green_Vehicle : Bool
deriving Repr, DecidableEq, Inhabited

/-- A pandas DataFrame: the list of column names present, and the typed rows.
Row labels are the default RangeIndex `0, 1, ..., n-1`. -/
structure DataFrame where
  columns : List String
  rows : List SalesRow
deriving Repr, DecidableEq

/-- `DataAnalysisError`: the custom exception class of the source.  The two
ways it is raised are an empty-input message and a missing-columns message. -/
inductive DataAnalysisError where
  | emptyInput (message : String)
  | missingColumns (missing : List String)
deriving Repr, DecidableEq

/-- `_ensure_columns`: the required columns that are absent from the frame,
in required-list order (`[c for c in required if c not in df.columns]`). -/
def ensure_columns_missing (df : DataFrame) (required : List String) : List String :=
  required.filter (fun c => !(df.columns.contains c))

/-- The shared validation prefix of every operation: raise on an empty frame,
then raise if any required column is missing. -/
def validate (fname : String) (required : List String) (df : DataFrame) :
    Option DataAnalysisError :=
  if df.rows.isEmpty then
    some (.emptyInput (fname ++ " requires a non-empty DataFrame"))
  else if ensure_columns_missing df required = [] then
    none
  else
    some (.missingColumns (ensure_columns_missing df required))

/-- The required columns of `calculate_market_metrics`. -/
def marketRequired : List String := ["Market_Segment", "Sales_Volume", "Price_USD", "Year"]

/-- The required columns of `analyze_regional_performance`. -/
def regionalRequired : List String := ["Region", "Year", "Sales_Volume", "Model", "Market_Segment"]

/-- The required columns of `calculate_time_series_metrics`. -/
def tsRequired : List String := ["Year", "Sales_Volume", "Price_USD", "Green_Vehicle"]

/-- The required columns of `segment_customer_base`. -/
def segmentRequired : List String := ["Price_USD", "Customer_ID", "Vehicle_Type"]

/-- Sum of the `Sales_Volume` column of a list of rows. -/
def volSum (rows : List SalesRow) : ℚ := (rows.map (·.Sales_Volume)).sum

/-- Mean of the `Price_USD` column of a list of rows (only used on
nonempty groups produced by `groupby`). -/
def priceMean (rows : List SalesRow) : ℚ :=
  (rows.map (·.Price_USD)).sum / rows.length

/-- Sum of the `Green_Vehicle` column (booleans sum as 0/1). -/
def greenSum (rows : List SalesRow) : ℚ :=
  (rows.map (fun r => if r.Green_Vehicle then (1 : ℚ) else 0)).sum

/-- Kernel-computable lexicographic comparison of character lists by code
point, used to model the sorted order pandas gives string group keys. -/
def charsLe : List Char → List Char → Bool
  | [], _ => true
  | _ :: _, [] => false
  | c :: cs, d :: ds =>
    if c.toNat < d.toNat then true
    else if d.toNat < c.toNat then false
    else charsLe cs ds

/-- Lexicographic order on strings. -/
def strLe (a b : String) : Bool := charsLe a.data b.data

/-- Strict lexicographic order on strings. -/
def strLt (a b : String) : Bool := !(strLe b a)

/-- Ascending string order as a decidable relation. -/
def stringAsc (a b : String) : Prop := strLe a b = true

instance : DecidableRel stringAsc := fun a b => inferInstanceAs (Decidable (strLe a b = true))

/-- The distinct values of a column, sorted ascending, as `groupby` and
`pivot_table` produce for their key axes (modelled with the stable
structural `insertionSort`). -/
def sortedKeys {α : Type} [DecidableEq α] (r : α → α → Prop) [DecidableRel r]
    (l : List α) : List α :=
  (l.dedup).insertionSort r

/-- The distinct `Market_Segment` values, sorted (the index of the metrics
table). -/
def segmentsOf (rows : List SalesRow) : List String :=
  sortedKeys stringAsc (rows.map (·.Market_Segment))

/-- The distinct `Year` values, sorted ascending (the columns of the
segment × year pivot, and the index of the time-series table). -/
def yearsOf (rows : List SalesRow) : List Int :=
  sortedKeys (fun a b : Int => a ≤ b) (rows.map (·.Year))

/-- `df.groupby(Market_Segment)[Sales_Volume].sum()` as an association list
keyed by segment. -/
def marketShareCol (rows : List SalesRow) : List (String × ℚ) :=
  (segmentsOf rows).map (fun s => (s, volSum (rows.filter (fun r => r.Market_Segment = s))))

/-- `metrics[Market_Share].sum()`: the grand total used as the percentage
denominator. -/
def marketShareTotal (rows : List SalesRow) : ℚ :=
  ((marketShareCol rows).map Prod.snd).sum

/-- `Market_Share_Pct`: per-segment share over the grand total times 100 when
the total is nonzero (Python truthiness of `total`), otherwise the scalar 0
broadcast over the whole column. -/
def marketSharePctCol (rows : List SalesRow) : List (String × ℚ) :=
  if marketShareTotal rows = 0 then
    (segmentsOf rows).map (fun s => (s, (0 : ℚ)))
  else
    (marketShareCol rows).map (fun p => (p.1, p.2 / marketShareTotal rows * 100))

/-- `Avg_Price`: per-segment mean of `Price_USD`. -/
def avgPriceCol (rows : List SalesRow) : List (String × ℚ) :=
  (segmentsOf rows).map (fun s => (s, priceMean (rows.filter (fun r => r.Market_Segment = s))))

/-- One cell of the `pivot_table(values=Sales_Volume, index=Market_Segment,
columns=Year, aggfunc=sum)` pivot: NaN (`none`) when no row has that segment
and year, otherwise the summed volume. -/
def pivotCell (rows : List SalesRow) (s : String) (y : Int) : Option ℚ :=
  let g := rows.filter (fun r => r.Market_Segment = s ∧ r.Year = y)
  if g.isEmpty then none else some (volSum g)

/-- `yearly_sales.columns[-1]`: the last (largest) year of the pivot. -/
def lastYear (rows : List SalesRow) : Int := (yearsOf rows).getLastD 0

/-- `yearly_sales.columns[-2]`: the second-to-last year of the pivot. -/
def prevYear (rows : List SalesRow) : Int :=
  (yearsOf rows).getD ((yearsOf rows).length - 2) 0

/-- `YoY_Growth`: when the pivot has at least two year columns, the per-segment
percent change between the last two year columns (NaN-propagating through
missing pivot cells); otherwise the scalar 0 broadcast over the column. -/
def yoyGrowthCol (rows : List SalesRow) : List (String × Option ℚ) :=
  if 2 ≤ (yearsOf rows).length then
    (segmentsOf rows).map (fun s => (s,
      match pivotCell rows s (lastYear rows), pivotCell rows s (prevYear rows) with
      | some a, some b => some ((a - b) / b * 100)
      | _, _ => none))
  else
    (segmentsOf rows).map (fun s => (s, some (0 : ℚ)))

/-- The result of `calculate_market_metrics`: a table keyed by
`Market_Segment`, each column an association list over that key. -/
structure MarketMetrics where
  Market_Share : List (String × ℚ)
  Market_Share_Pct : List (String × ℚ)
  Avg_Price : List (String × ℚ)
  YoY_Growth : List (String × Option ℚ)
deriving Repr, DecidableEq

/-- `calculate_market_metrics`. -/
def calculate_market_metrics (df : DataFrame) : Except DataAnalysisError MarketMetrics :=
  match validate "calculate_market_metrics" marketRequired df with
  | some e => .error e
  | none => .ok
      { Market_Share := marketShareCol df.rows
        Market_Share_Pct := marketSharePctCol df.rows
        Avg_Price := avgPriceCol df.rows
        YoY_Growth := yoyGrowthCol df.rows }

/-! ## analyze_regional_performance -/

/-- The distinct `Region` values, sorted. -/
def regionsOf (rows : List SalesRow) : List String :=
  sortedKeys stringAsc (rows.map (·.Region))

/-- One cell of `groupby([Region, Year])[Sales_Volume].sum().unstack()`:
NaN (`none`) for a (region, year) combination with no rows. -/
def salesCell (rows : List SalesRow) (r : String) (y : Int) : Option ℚ :=
  let g := rows.filter (fun x => x.Region = r ∧ x.Year = y)
  if g.isEmpty then none else some (volSum g)

/-- All (region, year) index pairs of the unstacked regional sales table. -/
def regionYearPairs (rows : List SalesRow) : List (String × Int) :=
  ((regionsOf rows).map (fun r => (yearsOf rows).map (fun y => (r, y)))).flatten

/-- `results[sales]`: the Region × Year grid of summed volumes, with NaN for
missing combinations. -/
def regionalSales (rows : List SalesRow) : List ((String × Int) × Option ℚ) :=
  (regionYearPairs rows).map (fun p => (p, salesCell rows p.1 p.2))

/-- The lexicographic (Region, Model) key order of
`groupby([Region, Model])[Sales_Volume].sum()`. -/
def rmKeyLe (a b : String × String) : Prop :=
  (if a.1 = b.1 then strLe a.2 b.2 else strLt a.1 b.1) = true

instance : DecidableRel rmKeyLe := fun a b =>
  inferInstanceAs (Decidable ((if a.1 = b.1 then strLe a.2 b.2 else strLt a.1 b.1) = true))

/-- The sorted distinct (Region, Model) keys (groupby sorts keys
lexicographically). -/
def regionModelKeys (rows : List SalesRow) : List (String × String) :=
  sortedKeys rmKeyLe (rows.map (fun r => (r.Region, r.Model)))

/-- `groupby([Region, Model])[Sales_Volume].sum().reset_index()`: one row per
(Region, Model) key with the summed volume. -/
def regionModelSums (rows : List SalesRow) : List ((String × String) × ℚ) :=
  (regionModelKeys rows).map
    (fun k => (k, volSum (rows.filter (fun r => (r.Region, r.Model) = k))))

/-- The descending-volume order of `.sort_values(Sales_Volume,
ascending=False)`. -/
def volDesc (a b : (String × String) × ℚ) : Prop := b.2 ≤ a.2

instance : DecidableRel volDesc := fun a b => inferInstanceAs (Decidable (b.2 ≤ a.2))

instance : IsTotal ((String × String) × ℚ) volDesc := ⟨fun a b => le_total b.2 a.2⟩

instance : IsTrans ((String × String) × ℚ) volDesc := ⟨fun _ _ _ h1 h2 => le_trans h2 h1⟩

/-- `.sort_values(Sales_Volume, ascending=False)`: sort the grouped rows by
descending volume.  The source uses the default kind=quicksort, which pandas
documents as not stable: the order among rows of equal volume is
implementation-defined (numpy introsort internals, third-party code).
`insertionSort` is one executable refinement of a descending sort; no theorem
in this file relies on the tie order this refinement produces. -/
def sortByVolumeDesc (l : List ((String × String) × ℚ)) : List ((String × String) × ℚ) :=
  l.insertionSort volDesc

/-- `.groupby(Region).head(3)`: keep, in order, the first three rows of each
region. `cnt` counts the rows of each region already kept. -/
def headPerRegion (cnt : String → ℕ) : List ((String × String) × ℚ) → List ((String × String) × ℚ)
  | [] => []
  | e :: es =>
    if cnt e.1.1 < 3 then
      e :: headPerRegion (fun r => if r = e.1.1 then cnt r + 1 else cnt r) es
    else
      headPerRegion cnt es

/-- `results[top_models]`. -/
def topModels (rows : List SalesRow) : List ((String × String) × ℚ) :=
  headPerRegion (fun _ => 0) (sortByVolumeDesc (regionModelSums rows))

/-- One cell of `groupby([Region, Market_Segment])[Sales_Volume].sum().unstack()`
before `fillna`. -/
def segmentShareCell (rows : List SalesRow) (r s : String) : Option ℚ :=
  let g := rows.filter (fun x => x.Region = r ∧ x.Market_Segment = s)
  if g.isEmpty then none else some (volSum g)

/-- `.fillna(0)`. -/
def fillna0 : Option ℚ → ℚ
  | some v => v
  | none => 0

/-- All (region, segment) cells of the unstacked segment-share table. -/
def regionSegmentPairs (rows : List SalesRow) : List (String × String) :=
  ((regionsOf rows).map (fun r => (segmentsOf rows).map (fun s => (r, s)))).flatten

/-- `results[segment_share]`: the Region × Market_Segment grid of summed
volumes, with missing combinations filled with 0. -/
def segmentShare (rows : List SalesRow) : List ((String × String) × ℚ) :=
  (regionSegmentPairs rows).map (fun p => (p, fillna0 (segmentShareCell rows p.1 p.2)))

/-- The result dictionary of `analyze_regional_performance`. -/
structure RegionalResults where
  sales : List ((String × Int) × Option ℚ)
  top_models : List ((String × String) × ℚ)
  segment_share : List ((String × String) × ℚ)
deriving Repr, DecidableEq

/-- `analyze_regional_performance`. -/
def analyze_regional_performance (df : DataFrame) : Except DataAnalysisError RegionalResults :=
  match validate "analyze_regional_performance" regionalRequired df with
  | some e => .error e
  | none => .ok
      { sales := regionalSales df.rows
        top_models := topModels df.rows
        segment_share := segmentShare df.rows }

/-! ## calculate_time_series_metrics -/

/-- The rows of a given year. -/
def yearGroup (rows : List SalesRow) (y : Int) : List SalesRow :=
  rows.filter (fun r => r.Year = y)

/-- The year-sorted summed `Sales_Volume` series of the time-series table. -/
def tsVolumes (rows : List SalesRow) : List ℚ :=
  (yearsOf rows).map (fun y => volSum (yearGroup rows y))

/-- The year-sorted mean `Price_USD` series. -/
def tsPrices (rows : List SalesRow) : List ℚ :=
  (yearsOf rows).map (fun y => priceMean (yearGroup rows y))

/-- The year-sorted summed `Green_Vehicle` series. -/
def tsGreens (rows : List SalesRow) : List ℚ :=
  (yearsOf rows).map (fun y => greenSum (yearGroup rows y))

/-- Tail of `Series.pct_change()`: the change of each value against `prev`. -/
def pctChangeFrom (prev : ℚ) : List ℚ → List (Option ℚ)
  | [] => []
  | v :: vs => some (v / prev - 1) :: pctChangeFrom v vs

/-- `Series.pct_change()`: the first entry is NaN, each later entry is
`v / previous - 1`. -/
def pctChange : List ℚ → List (Option ℚ)
  | [] => []
  | v :: vs => none :: pctChangeFrom v vs

/-- `Series.mean()` of a series with NaN entries: pandas skips the NaN entries
and returns NaN (`none`) when nothing remains.  `.mean()` never raises, so the
`except` fallbacks to 0 around it in the source are dead code. -/
def seriesMean (xs : List (Option ℚ)) : Option ℚ :=
  let vs := xs.filterMap id
  if vs.isEmpty then none else some (vs.sum / vs.length)

/-- `Sales_YoY`: `pct_change() * 100` of the volume series. -/
def salesYoY (rows : List SalesRow) : List (Option ℚ) :=
  (pctChange (tsVolumes rows)).map (Option.map (· * 100))

/-- `Price_YoY`: `pct_change() * 100` of the price series. -/
def priceYoY (rows : List SalesRow) : List (Option ℚ) :=
  (pctChange (tsPrices rows)).map (Option.map (· * 100))

/-- One row of the `ts_data` table. -/
structure TimeSeriesRow where
  Year : Int
  Sales_Volume : ℚ
  Price_USD : ℚ
  Green_Vehicle : ℚ
  Sales_YoY : Option ℚ
  Price_YoY : Option ℚ
deriving Repr, DecidableEq, Inhabited

/-- The `ts_data` table: one row per distinct year, ascending. -/
def tsTable (rows : List SalesRow) : List TimeSeriesRow :=
  (List.range (yearsOf rows).length).map (fun i =>
    { Year := (yearsOf rows).getD i 0
      Sales_Volume := (tsVolumes rows).getD i 0
      Price_USD := (tsPrices rows).getD i 0
      Green_Vehicle := (tsGreens rows).getD i 0
      Sales_YoY := (salesYoY rows).getD i none
      Price_YoY := (priceYoY rows).getD i none })

/-- `ts_data[Green_Vehicle].iloc[0]`: the first (earliest) year's green count. -/
def greenFirst (rows : List SalesRow) : ℚ := (tsGreens rows).headD 0

/-- `ts_data[Green_Vehicle].iloc[-1]`: the last (latest) year's green count. -/
def greenLast (rows : List SalesRow) : ℚ := (tsGreens rows).getLastD 0

/-- The scalar metrics dictionary of `calculate_time_series_metrics`. -/
structure TimeSeriesMetrics where
  avg_yearly_growth : Option ℚ
  price_trend : Option ℚ
  green_vehicle_growth : ℚ
deriving Repr, DecidableEq

/-- `green_vehicle_growth`: guarded by `iloc[0] > 0`, else 0. -/
def greenVehicleGrowth (rows : List SalesRow) : ℚ :=
  if 0 < greenFirst rows then (greenLast rows / greenFirst rows - 1) * 100 else 0

/-- `calculate_time_series_metrics`. -/
def calculate_time_series_metrics (df : DataFrame) :
    Except DataAnalysisError (List TimeSeriesRow × TimeSeriesMetrics) :=
  match validate "calculate_time_series_metrics" tsRequired df with
  | some e => .error e
  | none => .ok
      (tsTable df.rows,
       { avg_yearly_growth := seriesMean (salesYoY df.rows)
         price_trend := seriesMean (priceYoY df.rows)
         green_vehicle_growth := greenVehicleGrowth df.rows })

/-! ## segment_customer_base -/

/-- The strict lexicographic (value, original position) order that
`Series.rank(method=first)` breaks ties with. -/
def keyLt (vals : List ℚ) (j i : ℕ) : Prop :=
  vals.getD j 0 < vals.getD i 0 ∨ (vals.getD j 0 = vals.getD i 0 ∧ j < i)

instance (vals : List ℚ) (j i : ℕ) : Decidable (keyLt vals j i) := by
  unfold keyLt
  infer_instance

/-- `Series.rank(method=first)` at position `i`: one plus the number of
entries strictly before it in (value, position) order. -/
def rankAt (vals : List ℚ) (i : ℕ) : ℚ :=
  1 + ((Finset.range vals.length).filter (fun j => keyLt vals j i)).card

/-- `Series.rank(method=first)` as a list over the positions. -/
def rankFirst (vals : List ℚ) : List ℚ :=
  (List.range vals.length).map (rankAt vals)

/-- Linear-interpolation quantile of an ascending-sorted value list, the
default interpolation used by `Series.quantile` and hence by `qcut`. -/
def quantileSorted (v : List ℚ) (q : ℚ) : ℚ :=
  let h : ℚ := q * ((v.length : ℚ) - 1)
  let f : ℤ := ⌊h⌋
  let lo := v.getD f.toNat 0
  lo + (h - f) * (v.getD (f.toNat + 1) 0 - lo)

/-- The `q+1` bin edges `qcut` computes: the quantiles of the value list at
`0, 1/q, ..., 1`. -/
def quantileEdges (vals : List ℚ) (q : ℕ) : List ℚ :=
  (List.range (q + 1)).map
    (fun i : ℕ => quantileSorted (vals.insertionSort (· ≤ ·)) ((i : ℚ) / (q : ℚ)))

/-- The bin index of `x` for right-closed interval edges `[e0, e1, ..., eq]`:
the first `i` with `x ≤ e(i+1)` (the lowest edge is inclusive, which pandas
implements by nudging `e0` down, so `e0` is never compared against). -/
def searchBin (x : ℚ) : List ℚ → ℕ
  | [] => 0
  | [_] => 0
  | _ :: e :: rest => if x ≤ e then 0 else 1 + searchBin x (e :: rest)

/-- The five `Price_Category` labels, in increasing price order. -/
def priceLabels : List String := ["Budget", "Value", "Mid-Range", "Premium", "Luxury"]

/-- The bin edges of `pd.cut(xs, bins=5)`: five equal-width intervals over
the observed min/max, with the degenerate min = max range padded by 0.1%
on each side (pandas also nudges the lowest edge down by 0.1% of the range,
which only widens bin 0 below the minimum and is never compared against). -/
def cutEdges (xs : List ℚ) : List ℚ :=
  let mn := (xs.min?).getD 0
  let mx := (xs.max?).getD 0
  let lo := if mn = mx then (if mn = 0 then -(1 : ℚ) / 1000 else mn - |mn| / 1000) else mn
  let hi := if mn = mx then (if mx = 0 then (1 : ℚ) / 1000 else mx + |mx| / 1000) else mx
  (List.range 6).map (fun i => lo + (hi - lo) * i / 5)

/-- `Price_Category`: try `qcut(rank(method=first), 5, labels=priceLabels)`;
on failure (duplicate bin edges, the only failure mode on validated input)
fall back to `cut(Price_USD, bins=5, labels=priceLabels)`. -/
def priceCategoryCol (rows : List SalesRow) : List String :=
  let prices := rows.map (·.Price_USD)
  let ranks := rankFirst prices
  let edges := quantileEdges ranks 5
  if edges.Nodup then
    ranks.map (fun v => priceLabels.getD (searchBin v edges) "")
  else
    prices.map (fun p => priceLabels.getD (searchBin p (cutEdges prices)) "")

/-- `Series.mode()` followed by `.iat[0]`: the most frequent value; `mode`
returns the tied maximal values in ascending sorted order, so `.iat[0]` is
the smallest of them.  `none` exactly when the series is empty. -/
def modeFirst (xs : List String) : Option String :=
  let maxCount := ((xs.dedup).map (fun c => xs.count c)).foldr max 0
  ((xs.dedup.filter (fun c => xs.count c = maxCount)).insertionSort stringAsc).head?

/-- The distinct `Customer_ID` values, sorted (groupby key order). -/
def customersOf (rows : List SalesRow) : List Int :=
  sortedKeys (fun a b : Int => a ≤ b) (rows.map (·.Customer_ID))

/-- `df.groupby(Customer_ID)[Vehicle_Type].agg(lambda x: x.mode().iat[0] if
not x.mode().empty else np.nan)`: a series keyed by `Customer_ID`. -/
def primaryTypeAgg (rows : List SalesRow) : List (Int × Option String) :=
  (customersOf rows).map (fun c =>
    (c, modeFirst ((rows.filter (fun r => r.Customer_ID = c)).map (·.Vehicle_Type))))

/-- `segments[Primary_Type] = primaryTypeAgg`: assigning a series to a
dataframe column aligns on the frame index, so the row with label `i`
receives the aggregate of the customer whose ID equals `i` — not the
aggregate of its own `Customer_ID`. -/
def primaryTypeCol (rows : List SalesRow) : List (Option String) :=
  (List.range rows.length).map (fun i => ((primaryTypeAgg rows).lookup (Int.ofNat i)).bind id)

/-- The three `Purchase_Frequency` labels, in increasing order. -/
def freqLabels : List String := ["Low", "Medium", "High"]

/-- `df.groupby(Customer_ID).size()` mapped back through each row's own
`Customer_ID` (`.map(freq_map)`). -/
def purchaseCounts (rows : List SalesRow) : List ℚ :=
  rows.map (fun r => ((rows.filter (fun x => x.Customer_ID = r.Customer_ID)).length : ℚ))

/-- `Purchase_Frequency`: `qcut(counts.rank(method=first), 3)`; on failure
(duplicate bin edges) the whole column is set to the literal Unknown. -/
def purchaseFrequencyCol (rows : List SalesRow) : List String :=
  let ranks := rankFirst (purchaseCounts rows)
  let edges := quantileEdges ranks 3
  if edges.Nodup then
    ranks.map (fun v => freqLabels.getD (searchBin v edges) "")
  else
    List.replicate rows.length "Unknown"

/-- One row of the result of `segment_customer_base`: the input row plus the
three derived columns. -/
structure SegmentedRow where
  base : SalesRow
  Price_Category : String
  Primary_Type : Option String
  Purchase_Frequency : String
deriving Repr, DecidableEq

/-- The row list returned by `segment_customer_base` (after `df.copy()` and
the three column assignments). -/
def segmentRows (rows : List SalesRow) : List SegmentedRow :=
  (((rows.zip (priceCategoryCol rows)).zip (primaryTypeCol rows)).zip
      (purchaseFrequencyCol rows)).map
    (fun x => ⟨x.1.1.1, x.1.1.2, x.1.2, x.2⟩)

/-- `segment_customer_base`. -/
def segment_customer_base (df : DataFrame) : Except DataAnalysisError (List SegmentedRow) :=
  match validate "segment_customer_base" segmentRequired df with
  | some e => .error e
  | none => .ok (segmentRows df.rows)

/-! ## Required-column lists and sample frames -/

/-- All nine columns of the sales dataset. -/
def allColumns : List String :=
  ["Model", "Year", "Region", "Market_Segment", "Sales_Volume", "Price_USD",
   "Customer_ID", "Vehicle_Type", "Green_Vehicle"]

/-- Sample frame for the spec scenario: segment sums A = 100, B = 300. -/
def dfScenario : DataFrame :=
  ⟨allColumns,
   [⟨"X1", 2020, "EU", "A", 40, 10, 1, "Sedan", false⟩,
    ⟨"X2", 2020, "EU", "A", 60, 20, 1, "Sedan", false⟩,
    ⟨"X3", 2020, "US", "B", 300, 30, 2, "SUV", true⟩]⟩

/-- Sample frame with two years: segment A has volume 100 in 2020 and 150 in
2021. -/
def dfYoY : DataFrame :=
  ⟨allColumns,
   [⟨"X1", 2020, "EU", "A", 100, 10, 1, "Sedan", false⟩,
    ⟨"X2", 2021, "EU", "A", 150, 12, 1, "Sedan", false⟩]⟩

/-- Sample frame whose first year has a zero `Green_Vehicle` sum. -/
def dfGreen : DataFrame :=
  ⟨allColumns,
   [⟨"X1", 2020, "EU", "A", 100, 10, 1, "Sedan", false⟩,
    ⟨"X2", 2021, "EU", "A", 150, 12, 1, "Sedan", true⟩]⟩

/-- Sample frame spanning a single year. -/
def dfOneYear : DataFrame :=
  ⟨allColumns, [⟨"X1", 2020, "EU", "A", 100, 10, 1, "Sedan", false⟩]⟩

/-- Sample frame with four models in region EU and one in region US. -/
def dfTop : DataFrame :=
  ⟨allColumns,
   [⟨"X1", 2020, "EU", "A", 10, 1, 1, "Sedan", false⟩,
    ⟨"X2", 2020, "EU", "A", 30, 1, 1, "Sedan", false⟩,
    ⟨"X3", 2020, "EU", "A", 20, 1, 1, "Sedan", false⟩,
    ⟨"X4", 2020, "EU", "A", 5, 1, 1, "Sedan", false⟩,
    ⟨"X1", 2020, "US", "B", 7, 1, 2, "SUV", false⟩]⟩

/-- The rows of the C4 scenario: one customer (ID 7) with three purchases of
vehicle types Sedan, Sedan, SUV. -/
def bugRows : List SalesRow :=
  [⟨"X1", 2020, "EU", "A", 10, 10, 7, "Sedan", false⟩,
   ⟨"X2", 2020, "EU", "A", 20, 20, 7, "Sedan", false⟩,
   ⟨"X3", 2020, "EU", "A", 30, 30, 7, "SUV", false⟩]

/-- The C4 scenario as a frame. -/
def bugFrame : DataFrame := ⟨allColumns, bugRows⟩

/-! ## Helper lemmas -/

/-- Splitting a sum over a list by a key function: summing the per-key group
sums over a duplicate-free list of keys covering every element gives the total
sum.  This is the `groupby ... sum` partition property. -/
theorem sum_map_filter_eq {α K : Type} [DecidableEq K] (f : α → K) (g : α → ℚ) :
    ∀ keys : List K, keys.Nodup → ∀ l : List α, (∀ r ∈ l, f r ∈ keys) →
      (keys.map (fun k => ((l.filter (fun r => f r = k)).map g).sum)).sum = (l.map g).sum := by
  intro keys
  induction keys with
  | nil =>
    intro _ l hcov
    cases l with
    | nil => simp
    | cons a t => exact absurd (hcov a (List.mem_cons_self a t)) (List.not_mem_nil _)
  | cons k ks ih =>
    intro hnd l hcov
    have hperm := List.filter_append_perm (fun r => decide (f r = k)) l
    have hsum : (l.map g).sum
        = ((l.filter (fun r => decide (f r = k))).map g).sum
          + ((l.filter (fun r => !decide (f r = k))).map g).sum := by
      have h2 := (hperm.map g).sum_eq
      rw [List.map_append, List.sum_append] at h2
      exact h2.symm
    have hrest : ∀ k2 ∈ ks,
        l.filter (fun r => decide (f r = k2))
          = (l.filter (fun r => !decide (f r = k))).filter (fun r => decide (f r = k2)) := by
      intro k2 hk2
      rw [List.filter_filter]
      apply List.filter_congr
      intro a _
      by_cases hfa : f a = k2
      · have hk2k : k2 ≠ k := by
          rintro rfl
          exact (List.nodup_cons.mp hnd).1 hk2
        simp [hfa, hk2k]
      · simp [hfa]
    have hcov2 : ∀ r ∈ l.filter (fun r => !decide (f r = k)), f r ∈ ks := by
      intro r hr
      have hmem := List.mem_filter.mp hr
      have h1 : f r ∈ k :: ks := hcov r hmem.1
      have h2 : ¬(f r = k) := by simpa using hmem.2
      rcases List.mem_cons.mp h1 with h3 | h3
      · exact absurd h3 h2
      · exact h3
    have hks : ks.map (fun k2 => ((l.filter (fun r => f r = k2)).map g).sum)
        = ks.map (fun k2 =>
            (((l.filter (fun r => !decide (f r = k))).filter (fun r => f r = k2)).map g).sum) := by
      apply List.map_congr_left
      intro k2 hk2
      rw [hrest k2 hk2]
    rw [List.map_cons, List.sum_cons, hks, ih (List.nodup_cons.mp hnd).2 _ hcov2]
    exact hsum.symm

/-- `sortedKeys` keeps the elements duplicate-free. -/
theorem sortedKeys_nodup {α : Type} [DecidableEq α] (r : α → α → Prop) [DecidableRel r]
    (l : List α) : (sortedKeys r l).Nodup :=
  (List.perm_insertionSort r l.dedup).symm.nodup (List.nodup_dedup l)

/-- Membership in `sortedKeys` is membership in the column. -/
theorem mem_sortedKeys {α : Type} [DecidableEq α] {r : α → α → Prop} [inst : DecidableRel r]
    {l : List α} {a : α} : a ∈ sortedKeys r l ↔ a ∈ l := by
  rw [sortedKeys, (List.perm_insertionSort r l.dedup).mem_iff, List.mem_dedup]

/-- Looking up a key in an association list built by mapping over a key list
returns the mapped value of the key, whenever the key occurs. -/
theorem lookup_map_key {α β : Type} [DecidableEq α] [BEq α] [LawfulBEq α] (g : α → β) :
    ∀ (keys : List α) (a : α), a ∈ keys →
      (keys.map (fun k => (k, g k))).lookup a = some (g a) := by
  intro keys
  induction keys with
  | nil => simp
  | cons k ks ih =>
    intro a ha
    by_cases h : a = k
    · subst h
      simp [List.lookup]
    · have hks : a ∈ ks := by
        rcases List.mem_cons.mp ha with h1 | h1
        · exact absurd h1 h
        · exact h1
      have hbeq : (a == k) = false := by
        simpa [beq_eq_false_iff_ne] using h
      simp [List.lookup, hbeq, ih a hks]

/-- On an empty frame, validation raises the empty-input error. -/
theorem validate_empty (fname : String) (required : List String) (df : DataFrame)
    (h : df.rows = []) :
    validate fname required df = some (.emptyInput (fname ++ " requires a non-empty DataFrame")) := by
  simp [validate, h]

/-- On a non-empty frame with missing required columns, validation raises the
missing-columns error, naming exactly the missing columns. -/
theorem validate_missing (fname : String) (required : List String) (df : DataFrame)
    (hne : df.rows ≠ []) (hm : ensure_columns_missing df required ≠ []) :
    validate fname required df = some (.missingColumns (ensure_columns_missing df required)) := by
  have h1 : df.rows.isEmpty = false := by
    simpa [List.isEmpty_iff] using hne
  simp [validate, h1, hm]

/-- On a non-empty frame with all required columns, validation passes. -/
theorem validate_ok (fname : String) (required : List String) (df : DataFrame)
    (hne : df.rows ≠ []) (hm : ensure_columns_missing df required = []) :
    validate fname required df = none := by
  have h1 : df.rows.isEmpty = false := by
    simpa [List.isEmpty_iff] using hne
  simp [validate, h1, hm]

/-- On a validated frame, `calculate_market_metrics` returns its metrics
table. -/
theorem calculate_market_metrics_ok (df : DataFrame) (hne : df.rows ≠ [])
    (hcols : ensure_columns_missing df marketRequired = []) :
    calculate_market_metrics df = .ok
      { Market_Share := marketShareCol df.rows
        Market_Share_Pct := marketSharePctCol df.rows
        Avg_Price := avgPriceCol df.rows
        YoY_Growth := yoyGrowthCol df.rows } := by
  simp [calculate_market_metrics, validate_ok _ _ _ hne hcols]

/-- On a validated frame, `analyze_regional_performance` returns its results
dictionary. -/
theorem analyze_regional_performance_ok (df : DataFrame) (hne : df.rows ≠ [])
    (hcols : ensure_columns_missing df regionalRequired = []) :
    analyze_regional_performance df = .ok
      { sales := regionalSales df.rows
        top_models := topModels df.rows
        segment_share := segmentShare df.rows } := by
  simp [analyze_regional_performance, validate_ok _ _ _ hne hcols]

/-- On a validated frame, `calculate_time_series_metrics` returns its table
and scalar metrics. -/
theorem calculate_time_series_metrics_ok (df : DataFrame) (hne : df.rows ≠ [])
    (hcols : ensure_columns_missing df tsRequired = []) :
    calculate_time_series_metrics df = .ok
      (tsTable df.rows,
       { avg_yearly_growth := seriesMean (salesYoY df.rows)
         price_trend := seriesMean (priceYoY df.rows)
         green_vehicle_growth := greenVehicleGrowth df.rows }) := by
  simp [calculate_time_series_metrics, validate_ok _ _ _ hne hcols]

/-- On a validated frame, `segment_customer_base` returns its augmented rows. -/
theorem segment_customer_base_ok (df : DataFrame) (hne : df.rows ≠ [])
    (hcols : ensure_columns_missing df segmentRequired = []) :
    segment_customer_base df = .ok (segmentRows df.rows) := by
  simp [segment_customer_base, validate_ok _ _ _ hne hcols]

/-! ## Claim theorems -/

/-- C2: every metrics operation raises the (fatal) validation error on an
empty frame; on a non-empty frame with missing required columns it raises the
validation error whose payload names exactly the missing columns; and a
non-empty frame with all required columns passes validation and returns a
result.  The error type has only validation constructors: the computations
are total on validated input, so no computation error can be raised in these
cases. -/
theorem metrics_validation (df : DataFrame) :
    (df.rows = [] →
      calculate_market_metrics df
          = .error (.emptyInput "calculate_market_metrics requires a non-empty DataFrame")
        ∧ analyze_regional_performance df
          = .error (.emptyInput "analyze_regional_performance requires a non-empty DataFrame")
        ∧ calculate_time_series_metrics df
          = .error (.emptyInput "calculate_time_series_metrics requires a non-empty DataFrame")
        ∧ segment_customer_base df
          = .error (.emptyInput "segment_customer_base requires a non-empty DataFrame"))
    ∧ (df.rows ≠ [] →
      (ensure_columns_missing df marketRequired ≠ [] →
        calculate_market_metrics df
          = .error (.missingColumns (ensure_columns_missing df marketRequired)))
      ∧ (ensure_columns_missing df marketRequired = [] →
        ∃ v, calculate_market_metrics df = .ok v)
      ∧ (ensure_columns_missing df regionalRequired ≠ [] →
        analyze_regional_performance df
          = .error (.missingColumns (ensure_columns_missing df regionalRequired)))
      ∧ (ensure_columns_missing df regionalRequired = [] →
        ∃ v, analyze_regional_performance df = .ok v)
      ∧ (ensure_columns_missing df tsRequired ≠ [] →
        calculate_time_series_metrics df
          = .error (.missingColumns (ensure_columns_missing df tsRequired)))
      ∧ (ensure_columns_missing df tsRequired = [] →
        ∃ v, calculate_time_series_metrics df = .ok v)
      ∧ (ensure_columns_missing df segmentRequired ≠ [] →
        segment_customer_base df
          = .error (.missingColumns (ensure_columns_missing df segmentRequired)))
      ∧ (ensure_columns_missing df segmentRequired = [] →
        ∃ v, segment_customer_base df = .ok v)) := by
  constructor
  · intro h
    refine ⟨?_, ?_, ?_, ?_⟩ <;>
      simp [calculate_market_metrics, analyze_regional_performance,
        calculate_time_series_metrics, segment_customer_base,
        validate_empty _ _ _ h]
  · intro hne
    refine ⟨fun hm => ?_, fun hm => ⟨_, calculate_market_metrics_ok df hne hm⟩,
      fun hm => ?_, fun hm => ⟨_, analyze_regional_performance_ok df hne hm⟩,
      fun hm => ?_, fun hm => ⟨_, calculate_time_series_metrics_ok df hne hm⟩,
      fun hm => ?_, fun hm => ⟨_, segment_customer_base_ok df hne hm⟩⟩ <;>
      simp [calculate_market_metrics, analyze_regional_performance,
        calculate_time_series_metrics, segment_customer_base,
        validate_missing _ _ _ hne hm]

/-- Witness for C2: on the empty frame `calculate_market_metrics` raises the
empty-input validation error; dropping all columns but `Year` from a one-row
frame makes it raise the missing-columns error naming exactly the three
missing columns; and the full scenario frame passes validation. -/
theorem metrics_validation_witness :
    calculate_market_metrics ⟨allColumns, []⟩
        = .error (.emptyInput "calculate_market_metrics requires a non-empty DataFrame")
    ∧ calculate_market_metrics ⟨["Year"], dfScenario.rows⟩
        = .error (.missingColumns ["Market_Segment", "Sales_Volume", "Price_USD"])
    ∧ ∃ v, calculate_market_metrics dfScenario = .ok v := by
  refine ⟨((metrics_validation ⟨allColumns, []⟩).1 rfl).1, ?_, ?_⟩
  · have h := ((metrics_validation ⟨["Year"], dfScenario.rows⟩).2 (by decide)).1 (by decide)
    have he : ensure_columns_missing ⟨["Year"], dfScenario.rows⟩ marketRequired
        = ["Market_Segment", "Sales_Volume", "Price_USD"] := by decide
    rw [he] at h
    exact h
  · exact ((metrics_validation dfScenario).2 (by decide)).2.1 (by decide)

/-- C1: on a validated frame, `calculate_market_metrics` returns the table
keyed by `Market_Segment` whose `Market_Share` column holds each segment's
summed `Sales_Volume` (so the column sums to the total `Sales_Volume` of the
input), and whose `Market_Share_Pct` column equals share over grand total
times 100 — summing to 100 when the grand total is positive — and is 0
everywhere when the grand total is 0. -/
theorem market_share_and_pct (df : DataFrame) (hne : df.rows ≠ [])
    (hcols : ensure_columns_missing df marketRequired = []) :
    ∃ m, calculate_market_metrics df = .ok m
      ∧ m.Market_Share = (segmentsOf df.rows).map
          (fun s => (s, volSum (df.rows.filter (fun r => r.Market_Segment = s))))
      ∧ (m.Market_Share.map Prod.snd).sum = volSum df.rows
      ∧ (0 < marketShareTotal df.rows →
          m.Market_Share_Pct = m.Market_Share.map
            (fun p => (p.1, p.2 / marketShareTotal df.rows * 100))
          ∧ (m.Market_Share_Pct.map Prod.snd).sum = 100)
      ∧ (marketShareTotal df.rows = 0 → ∀ p ∈ m.Market_Share_Pct, p.2 = 0) := by
  have hok := calculate_market_metrics_ok df hne hcols
  have hsum : ((marketShareCol df.rows).map Prod.snd).sum = volSum df.rows := by
    have h := sum_map_filter_eq (fun r : SalesRow => r.Market_Segment)
      (fun r : SalesRow => r.Sales_Volume) (segmentsOf df.rows)
      (sortedKeys_nodup _ _) df.rows
      (fun r hr => mem_sortedKeys.mpr (List.mem_map_of_mem _ hr))
    simpa [marketShareCol, volSum, List.map_map, Function.comp] using h
  refine ⟨_, hok, rfl, hsum, fun hpos => ?_, fun hz => ?_⟩
  · have hT : marketShareTotal df.rows ≠ 0 := ne_of_gt hpos
    constructor
    · simp [marketSharePctCol, hT]
    · have h1 : (marketSharePctCol df.rows).map Prod.snd
          = (marketShareCol df.rows).map
              (fun p => p.2 * (100 / marketShareTotal df.rows)) := by
        simp only [marketSharePctCol, if_neg hT, List.map_map]
        apply List.map_congr_left
        intro p _
        simp [Function.comp]
        ring
      rw [h1, List.sum_map_mul_right]
      have h2 : ((marketShareCol df.rows).map (fun p => p.2)).sum
          = marketShareTotal df.rows := rfl
      rw [h2]
      field_simp
  · intro p hp
    have hp2 : p ∈ marketSharePctCol df.rows := hp
    rw [marketSharePctCol, if_pos hz] at hp2
    obtain ⟨s, _, rfl⟩ := List.mem_map.mp hp2
    rfl

/-- Witness for C1, on the spec scenario (segment sums A = 100, B = 300): the
grand total 400 is positive and the conclusion holds there. -/
theorem market_share_and_pct_witness :
    0 < marketShareTotal dfScenario.rows
    ∧ ∃ m, calculate_market_metrics dfScenario = .ok m
      ∧ m.Market_Share = [("A", 100), ("B", 300)]
      ∧ m.Market_Share_Pct = [("A", 25), ("B", 75)]
      ∧ (m.Market_Share.map Prod.snd).sum = volSum dfScenario.rows
      ∧ (m.Market_Share_Pct.map Prod.snd).sum = 100 := by
  have htot : marketShareTotal dfScenario.rows = 400 := by
    norm_num +decide [marketShareTotal, marketShareCol, segmentsOf, sortedKeys, volSum,
      dfScenario, stringAsc, strLe, charsLe, List.insertionSort, List.orderedInsert,
      List.dedup_cons_of_mem, List.dedup_cons_of_not_mem]
  refine ⟨by rw [htot]; norm_num, ?_⟩
  obtain ⟨m, hok, hshare, hsum, hpos, _⟩ :=
    market_share_and_pct dfScenario (by decide) (by decide)
  obtain ⟨hpct, hpct100⟩ := hpos (by rw [htot]; norm_num)
  refine ⟨m, hok, ?_, ?_, hsum, hpct100⟩
  · rw [hshare]
    norm_num +decide [segmentsOf, sortedKeys, volSum, dfScenario, stringAsc, strLe, charsLe,
      List.insertionSort, List.orderedInsert,
      List.dedup_cons_of_mem, List.dedup_cons_of_not_mem]
  · rw [hpct, hshare, htot]
    norm_num +decide [segmentsOf, sortedKeys, volSum, dfScenario, stringAsc, strLe, charsLe,
      List.insertionSort, List.orderedInsert,
      List.dedup_cons_of_mem, List.dedup_cons_of_not_mem]

/-- C3: on a validated frame, `YoY_Growth` comes from the segment-by-year
pivot of summed `Sales_Volume`: with at least two distinct years, each
segment's growth is (last-year volume − second-to-last-year volume) over the
second-to-last-year volume times 100, the years taken in sorted order; with
fewer than two distinct years it is 0 for every segment. -/
theorem yoy_growth_pivot (df : DataFrame) (hne : df.rows ≠ [])
    (hcols : ensure_columns_missing df marketRequired = []) :
    ∃ m, calculate_market_metrics df = .ok m
      ∧ (2 ≤ (yearsOf df.rows).length →
          ∀ s ∈ segmentsOf df.rows, ∀ a b : ℚ,
            pivotCell df.rows s (lastYear df.rows) = some a →
            pivotCell df.rows s (prevYear df.rows) = some b → b ≠ 0 →
            m.YoY_Growth.lookup s = some (some ((a - b) / b * 100)))
      ∧ ((yearsOf df.rows).length < 2 →
          ∀ s ∈ segmentsOf df.rows, m.YoY_Growth.lookup s = some (some 0)) := by
  refine ⟨_, calculate_market_metrics_ok df hne hcols, ?_, ?_⟩
  · intro h2 s hs a b ha hb _
    have hcol : yoyGrowthCol df.rows = (segmentsOf df.rows).map (fun s => (s,
        match pivotCell df.rows s (lastYear df.rows), pivotCell df.rows s (prevYear df.rows) with
        | some a, some b => some ((a - b) / b * 100)
        | _, _ => none)) := by
      rw [yoyGrowthCol, if_pos h2]
    show (yoyGrowthCol df.rows).lookup s = _
    rw [hcol, lookup_map_key _ _ s hs, ha, hb]
  · intro h2 s hs
    have hcol : yoyGrowthCol df.rows
        = (segmentsOf df.rows).map (fun s => (s, some (0 : ℚ))) := by
      rw [yoyGrowthCol, if_neg (by omega)]
    show (yoyGrowthCol df.rows).lookup s = _
    rw [hcol, lookup_map_key _ _ s hs]

/-- Witness for C3, on a frame where segment A has volume 100 in 2020 and 150
in 2021: the growth is 50 percent. -/
theorem yoy_growth_pivot_witness :
    ∃ m, calculate_market_metrics dfYoY = .ok m
      ∧ m.YoY_Growth.lookup "A" = some (some 50) := by
  obtain ⟨m, hok, hy, _⟩ := yoy_growth_pivot dfYoY (by decide) (by decide)
  refine ⟨m, hok, ?_⟩
  have ha : pivotCell dfYoY.rows "A" (lastYear dfYoY.rows) = some 150 := by
    norm_num +decide [pivotCell, lastYear, yearsOf, sortedKeys, volSum, dfYoY,
      List.insertionSort, List.orderedInsert,
      List.dedup_cons_of_mem, List.dedup_cons_of_not_mem]
  have hb : pivotCell dfYoY.rows "A" (prevYear dfYoY.rows) = some 100 := by
    norm_num +decide [pivotCell, prevYear, yearsOf, sortedKeys, volSum, dfYoY,
      List.insertionSort, List.orderedInsert,
      List.dedup_cons_of_mem, List.dedup_cons_of_not_mem]
  have h := hy (by decide) "A" (by decide) 150 100 ha hb (by norm_num)
  rw [h]
  norm_num

/-- C7: on a validated frame, `green_vehicle_growth` equals (last year's
summed green count over first year's summed green count − 1) × 100 whenever
the first year's count is positive, and is exactly 0 whenever the first
year's count is 0, whatever the later years hold; the operation returns
normally (no exception) in both cases. -/
theorem green_growth_guarded (df : DataFrame) (hne : df.rows ≠ [])
    (hcols : ensure_columns_missing df tsRequired = []) :
    ∃ ts m, calculate_time_series_metrics df = .ok (ts, m)
      ∧ (greenFirst df.rows = 0 → m.green_vehicle_growth = 0)
      ∧ (0 < greenFirst df.rows →
          m.green_vehicle_growth = (greenLast df.rows / greenFirst df.rows - 1) * 100) := by
  refine ⟨_, _, calculate_time_series_metrics_ok df hne hcols, ?_, ?_⟩
  · intro h0
    show greenVehicleGrowth df.rows = 0
    rw [greenVehicleGrowth, if_neg (by rw [h0]; exact lt_irrefl 0)]
  · intro h0
    show greenVehicleGrowth df.rows = _
    rw [greenVehicleGrowth, if_pos h0]

/-- Witness for C7: a frame whose 2020 rows have no green vehicles (first
year's green sum 0) but whose 2021 row is green yields growth exactly 0. -/
theorem green_growth_guarded_witness :
    greenFirst dfGreen.rows = 0
    ∧ ∃ ts m, calculate_time_series_metrics dfGreen = .ok (ts, m)
      ∧ m.green_vehicle_growth = 0 := by
  have h0 : greenFirst dfGreen.rows = 0 := by
    norm_num +decide [greenFirst, tsGreens, greenSum, yearGroup, yearsOf, sortedKeys,
      dfGreen, List.insertionSort, List.orderedInsert,
      List.dedup_cons_of_mem, List.dedup_cons_of_not_mem]
  obtain ⟨ts, m, hok, hz, _⟩ := green_growth_guarded dfGreen (by decide) (by decide)
  exact ⟨h0, ts, m, hok, hz h0⟩

/-- C10: on a validated frame with exactly one distinct year, the
percent-change series is all-NaN, so `avg_yearly_growth` and `price_trend`
are NaN (`none`) rather than 0, and the operation returns normally — the
exception fallback to 0 never fires because `Series.mean` does not raise. -/
theorem single_year_means_nan (df : DataFrame) (hne : df.rows ≠ [])
    (hcols : ensure_columns_missing df tsRequired = [])
    (hy : (yearsOf df.rows).length = 1) :
    ∃ ts m, calculate_time_series_metrics df = .ok (ts, m)
      ∧ m.avg_yearly_growth = none ∧ m.price_trend = none := by
  obtain ⟨y, hy1⟩ := List.length_eq_one.mp hy
  refine ⟨_, _, calculate_time_series_metrics_ok df hne hcols, ?_, ?_⟩
  · show seriesMean (salesYoY df.rows) = none
    rw [salesYoY, tsVolumes, hy1]
    simp [pctChange, pctChangeFrom, seriesMean]
  · show seriesMean (priceYoY df.rows) = none
    rw [priceYoY, tsPrices, hy1]
    simp [pctChange, pctChangeFrom, seriesMean]

/-- Witness for C10: the one-row frame spans a single year and both scalar
trend metrics are NaN. -/
theorem single_year_means_nan_witness :
    ∃ ts m, calculate_time_series_metrics dfOneYear = .ok (ts, m)
      ∧ m.avg_yearly_growth = none ∧ m.price_trend = none :=
  single_year_means_nan dfOneYear (by decide) (by decide) (by decide)

/-- After `fillna(0)`, a segment-share cell is just the summed volume of the
matching rows (an absent combination sums over no rows, giving 0). -/
theorem fillna0_segmentShareCell (rows : List SalesRow) (r s : String) :
    fillna0 (segmentShareCell rows r s)
      = volSum (rows.filter (fun x => x.Region = r ∧ x.Market_Segment = s)) := by
  rw [segmentShareCell]
  by_cases h : (rows.filter (fun x => decide (x.Region = r ∧ x.Market_Segment = s))).isEmpty
  · rw [if_pos h]
    rw [List.isEmpty_iff] at h
    rw [h]
    rfl
  · rw [if_neg h, fillna0]

/-- C6: on a validated frame, the `segment_share` table of
`analyze_regional_performance` has a defined cell for every
(Region, Market_Segment) pair of the input, equal to the summed
`Sales_Volume` of the matching rows — which is 0 for pairs with no matching
rows, so no cell is left undefined. -/
theorem segment_share_filled (df : DataFrame) (hne : df.rows ≠ [])
    (hcols : ensure_columns_missing df regionalRequired = []) :
    ∃ res, analyze_regional_performance df = .ok res
      ∧ ∀ r ∈ regionsOf df.rows, ∀ s ∈ segmentsOf df.rows,
          res.segment_share.lookup (r, s)
            = some (volSum (df.rows.filter (fun x => x.Region = r ∧ x.Market_Segment = s))) := by
  refine ⟨_, analyze_regional_performance_ok df hne hcols, ?_⟩
  intro r hr s hs
  have hmem : (r, s) ∈ regionSegmentPairs df.rows := by
    rw [regionSegmentPairs, List.mem_flatten]
    refine ⟨(segmentsOf df.rows).map (fun s => (r, s)), List.mem_map_of_mem _ hr, ?_⟩
    exact List.mem_map_of_mem _ hs
  show (segmentShare df.rows).lookup (r, s) = _
  rw [segmentShare, lookup_map_key _ _ _ hmem, fillna0_segmentShareCell]

/-- Witness for C6, on the frame with rows only for (EU, A) and (US, B): the
absent combination (EU, B) appears with value 0 and the present combination
(EU, A) carries its summed volume 100. -/
theorem segment_share_filled_witness :
    ∃ res, analyze_regional_performance dfYoY = .ok res
      ∧ res.segment_share.lookup ("EU", "A") = some 250
      ∧ ∃ res2, analyze_regional_performance dfTop = .ok res2
          ∧ res2.segment_share.lookup ("EU", "B") = some 0 := by
  obtain ⟨res, hok, h⟩ := segment_share_filled dfYoY (by decide) (by decide)
  obtain ⟨res2, hok2, h2⟩ := segment_share_filled dfTop (by decide) (by decide)
  refine ⟨res, hok, ?_, res2, hok2, ?_⟩
  · have := h "EU" (by decide) "A" (by decide)
    rw [this]
    norm_num +decide [volSum, dfYoY]
  · have := h2 "EU" (by decide) "B" (by decide)
    rw [this]
    norm_num +decide [volSum, dfTop]

/-- Filtering one region out of `groupby(Region).head(3)` keeps the first
`3 - cnt r` rows of the region, in order. -/
theorem headPerRegion_filter (r : String) :
    ∀ (L : List ((String × String) × ℚ)) (cnt : String → ℕ),
      (headPerRegion cnt L).filter (fun e => e.1.1 = r)
        = (L.filter (fun e => e.1.1 = r)).take (3 - cnt r) := by
  intro L
  induction L with
  | nil => intro cnt; simp [headPerRegion]
  | cons e es ih =>
    intro cnt
    rw [headPerRegion]
    by_cases hr : e.1.1 = r
    · subst hr
      by_cases hc : cnt e.1.1 < 3
      · rw [if_pos hc, List.filter_cons, ih, List.filter_cons]
        simp only [decide_eq_true_eq, eq_self_iff_true, if_true]
        obtain ⟨m, hm⟩ : ∃ m, 3 - cnt e.1.1 = m + 1 := ⟨2 - cnt e.1.1, by omega⟩
        rw [hm, List.take_succ_cons, show 3 - (cnt e.1.1 + 1) = m from by omega]
      · rw [if_neg hc, ih, List.filter_cons]
        simp only [decide_eq_true_eq, eq_self_iff_true, if_true]
        rw [show 3 - cnt e.1.1 = 0 from by omega]
        simp
    · by_cases hc : cnt e.1.1 < 3
      · rw [if_pos hc, List.filter_cons, ih, List.filter_cons]
        simp [hr, Ne.symm hr]
      · rw [if_neg hc, ih, List.filter_cons]
        simp [hr]

/-- The volume-sorted grouped rows are pairwise descending in volume. -/
theorem sortByVolumeDesc_pairwise (l : List ((String × String) × ℚ)) :
    List.Pairwise (fun a b : (String × String) × ℚ => b.2 ≤ a.2) (sortByVolumeDesc l) :=
  List.sorted_insertionSort volDesc l

/-- Tie-order-insensitive facts about `top_models` (a development theorem,
deliberately not tied to any claim): the source sorts the grouped
(Region, Model) sums with the default unstable kind=quicksort, so the order
among equal volumes is implementation-defined and nothing below depends on
it.  For every region, `top_models` keeps at most three rows, in descending
summed-volume order, and every grouped row of that region left out of
`top_models` has volume at most that of every kept row of the region.
These facts hold for any descending sort of the grouped rows. -/
theorem top_models_region_bounds (df : DataFrame) (hne : df.rows ≠ [])
    (hcols : ensure_columns_missing df regionalRequired = []) :
    ∃ res, analyze_regional_performance df = .ok res
      ∧ ∀ r : String,
          (res.top_models.filter (fun e => e.1.1 = r)).length ≤ 3
          ∧ List.Pairwise (fun a b : (String × String) × ℚ => b.2 ≤ a.2)
              (res.top_models.filter (fun e => e.1.1 = r))
          ∧ ∀ e ∈ res.top_models.filter (fun e => e.1.1 = r),
              ∀ e2 ∈ regionModelSums df.rows, e2.1.1 = r →
                e2 ∉ res.top_models → e2.2 ≤ e.2 := by
  refine ⟨_, analyze_regional_performance_ok df hne hcols, ?_⟩
  intro r
  have heq : (topModels df.rows).filter (fun e => e.1.1 = r)
      = ((sortByVolumeDesc (regionModelSums df.rows)).filter (fun e => e.1.1 = r)).take 3 := by
    rw [topModels, headPerRegion_filter]
  have hS : List.Pairwise (fun a b : (String × String) × ℚ => b.2 ≤ a.2)
      ((sortByVolumeDesc (regionModelSums df.rows)).filter (fun e => e.1.1 = r)) :=
    List.Pairwise.sublist (List.filter_sublist _) (sortByVolumeDesc_pairwise _)
  refine ⟨?_, ?_, ?_⟩
  · rw [heq, List.length_take]
    omega
  · rw [heq]
    exact List.Pairwise.sublist (List.take_sublist _ _) hS
  · intro e he e2 he2 hr2 hnot
    have he2S : e2 ∈ (sortByVolumeDesc (regionModelSums df.rows)).filter
        (fun e => e.1.1 = r) := by
      rw [List.mem_filter]
      refine ⟨?_, by simp [hr2]⟩
      exact (List.perm_insertionSort volDesc (regionModelSums df.rows)).mem_iff.mpr he2
    have hnotT : e2 ∉ (topModels df.rows).filter (fun e => e.1.1 = r) := by
      intro hmem
      exact hnot (List.mem_filter.mp hmem).1
    rw [heq] at hnotT he
    have hsplit := List.take_append_drop 3
      ((sortByVolumeDesc (regionModelSums df.rows)).filter (fun e => e.1.1 = r))
    have he2drop : e2 ∈ ((sortByVolumeDesc (regionModelSums df.rows)).filter
        (fun e => e.1.1 = r)).drop 3 := by
      have h2 := he2S
      rw [← hsplit, List.mem_append] at h2
      rcases h2 with h2 | h2
      · exact absurd h2 hnotT
      · exact h2
    have hpw := hS
    rw [← hsplit] at hpw
    exact (List.pairwise_append.mp hpw).2.2 e he e2 he2drop

/-- `rank(method=first)` assigns one rank per position. -/
theorem rankFirst_length (vals : List ℚ) : (rankFirst vals).length = vals.length := by
  simp [rankFirst]

/-- Both binning attempts label every row. -/
theorem priceCategoryCol_length (rows : List SalesRow) :
    (priceCategoryCol rows).length = rows.length := by
  simp only [priceCategoryCol]
  split <;> simp [rankFirst_length]

/-- The aligned `Primary_Type` column has one cell per row label. -/
theorem primaryTypeCol_length (rows : List SalesRow) :
    (primaryTypeCol rows).length = rows.length := by
  simp [primaryTypeCol]

/-- The `Purchase_Frequency` column has one cell per row on both paths. -/
theorem purchaseFrequencyCol_length (rows : List SalesRow) :
    (purchaseFrequencyCol rows).length = rows.length := by
  simp only [purchaseFrequencyCol]
  split <;> simp [rankFirst_length, purchaseCounts]

/-- Projecting the original rows back out of the zipped-and-rebuilt
segmentation rows recovers the input rows unchanged. -/
theorem map_base_zip3 (A : List SalesRow) :
    ∀ (B : List String) (C : List (Option String)) (D : List String),
      B.length = A.length → C.length = A.length → D.length = A.length →
      ((((A.zip B).zip C).zip D).map
        (fun x => (⟨x.1.1.1, x.1.1.2, x.1.2, x.2⟩ : SegmentedRow))).map (·.base) = A := by
  induction A with
  | nil => intro B C D _ _ _; simp
  | cons a A ih =>
    intro B C D hB hC hD
    cases B with
    | nil => simp at hB
    | cons b B =>
      cases C with
      | nil => simp at hC
      | cons c C =>
        cases D with
        | nil => simp at hD
        | cons d D =>
          simp only [List.zip_cons_cons, List.map_cons]
          rw [ih B C D (by simpa using hB) (by simpa using hC) (by simpa using hD)]

/-- Projecting the `Primary_Type` column back out of the zipped-and-rebuilt
segmentation rows recovers that column unchanged. -/
theorem map_primary_type_zip3 (A : List SalesRow) :
    ∀ (B : List String) (C : List (Option String)) (D : List String),
      B.length = A.length → C.length = A.length → D.length = A.length →
      ((((A.zip B).zip C).zip D).map
        (fun x => (⟨x.1.1.1, x.1.1.2, x.1.2, x.2⟩ : SegmentedRow))).map (·.Primary_Type) = C := by
  induction A with
  | nil =>
    intro B C D _ hC _
    rw [List.length_nil, List.length_eq_zero] at hC
    simp [hC]
  | cons a A ih =>
    intro B C D hB hC hD
    cases B with
    | nil => simp at hB
    | cons b B =>
      cases C with
      | nil => simp at hC
      | cons c C =>
        cases D with
        | nil => simp at hD
        | cons d D =>
          simp only [List.zip_cons_cons, List.map_cons]
          rw [ih B C D (by simpa using hB) (by simpa using hC) (by simpa using hD)]

/-- C9: on a validated frame, `segment_customer_base` returns a table with
exactly the input's rows, in the input's order, with all original column
values unchanged — only the three derived columns are added.  (The source
works on `df.copy()`, and this embedding is a pure function of the rows, so
the argument frame is not mutated.) -/
theorem segment_preserves_input (df : DataFrame) (hne : df.rows ≠ [])
    (hcols : ensure_columns_missing df segmentRequired = []) :
    ∃ out, segment_customer_base df = .ok out
      ∧ out.map (·.base) = df.rows
      ∧ out.length = df.rows.length := by
  refine ⟨_, segment_customer_base_ok df hne hcols, ?_, ?_⟩
  · exact map_base_zip3 df.rows _ _ _ (priceCategoryCol_length df.rows)
      (primaryTypeCol_length df.rows) (purchaseFrequencyCol_length df.rows)
  · have h := map_base_zip3 df.rows _ _ _ (priceCategoryCol_length df.rows)
      (primaryTypeCol_length df.rows) (purchaseFrequencyCol_length df.rows)
    calc (segmentRows df.rows).length
        = ((segmentRows df.rows).map (·.base)).length := (List.length_map _ _).symm
      _ = df.rows.length := by
          simp only [segmentRows] at h ⊢
          exact congrArg List.length h

/-- Witness for C9 on the scenario frame. -/
theorem segment_preserves_input_witness :
    ∃ out, segment_customer_base dfScenario = .ok out
      ∧ out.map (·.base) = dfScenario.rows
      ∧ out.length = dfScenario.rows.length :=
  segment_preserves_input dfScenario (by decide) (by decide)

/-- C4 (code bug): the source assigns the per-customer `Vehicle_Type` mode
series — indexed by `Customer_ID` — directly to a column of a frame whose
index is the row labels `0, 1, ..., n-1`, without mapping it through each
row's `Customer_ID` (contrast `Purchase_Frequency`, which uses
`.map(freq_map)`).  Column assignment aligns on the frame index, so for a
customer with ID 7 and purchases [Sedan, Sedan, SUV] every row gets a null
`Primary_Type`, although the per-customer mode the spec describes is Sedan. -/
theorem primary_type_alignment_bug :
    segment_customer_base bugFrame = .ok (segmentRows bugRows)
    ∧ (segmentRows bugRows).map (·.Primary_Type) = [none, none, none]
    ∧ modeFirst (bugRows.map (·.Vehicle_Type)) = some "Sedan" := by
  refine ⟨segment_customer_base_ok bugFrame (by decide) (by decide), ?_, by decide⟩
  have h := map_primary_type_zip3 bugRows _ _ _ (priceCategoryCol_length bugRows)
    (primaryTypeCol_length bugRows) (purchaseFrequencyCol_length bugRows)
  show ((((bugRows.zip (priceCategoryCol bugRows)).zip (primaryTypeCol bugRows)).zip
      (purchaseFrequencyCol bugRows)).map
        (fun x => (⟨x.1.1.1, x.1.1.2, x.1.2, x.2⟩ : SegmentedRow))).map (·.Primary_Type)
      = [none, none, none]
  rw [h]
  decide

/-! ## Rank and quantile lemmas for the binning strategy -/

/-- The (value, position) order behind `rank(method=first)` is transitive. -/
theorem keyLt_trans (vals : List ℚ) {a b c : ℕ}
    (h1 : keyLt vals a b) (h2 : keyLt vals b c) : keyLt vals a c := by
  rcases h1 with h1 | ⟨he1, hl1⟩ <;> rcases h2 with h2 | ⟨he2, hl2⟩
  · exact Or.inl (lt_trans h1 h2)
  · exact Or.inl (he2 ▸ h1)
  · exact Or.inl (he1 ▸ h2)
  · exact Or.inr ⟨he1.trans he2, lt_trans hl1 hl2⟩

/-- The (value, position) order is irreflexive. -/
theorem keyLt_irrefl (vals : List ℚ) (i : ℕ) : ¬ keyLt vals i i := by
  rintro (h | ⟨_, h⟩)
  · exact lt_irrefl _ h
  · exact lt_irrefl _ h

/-- Two distinct positions are comparable in the (value, position) order. -/
theorem keyLt_total (vals : List ℚ) {i j : ℕ} (h : i ≠ j) :
    keyLt vals i j ∨ keyLt vals j i := by
  rcases lt_trichotomy (vals.getD i 0) (vals.getD j 0) with hv | hv | hv
  · exact Or.inl (Or.inl hv)
  · rcases h.lt_or_lt with hij | hij
    · exact Or.inl (Or.inr ⟨hv, hij⟩)
    · exact Or.inr (Or.inr ⟨hv.symm, hij⟩)
  · exact Or.inr (Or.inl hv)

/-- `rank(method=first)` is strictly monotone along the (value, position)
order: a strictly earlier key has a strictly smaller rank. -/
theorem rankAt_lt_rankAt (vals : List ℚ) {i j : ℕ} (hi : i < vals.length)
    (hij : keyLt vals i j) : rankAt vals i < rankAt vals j := by
  have hsub : (Finset.range vals.length).filter (fun a => keyLt vals a i)
      ⊆ (Finset.range vals.length).filter (fun a => keyLt vals a j) := by
    intro a ha
    rw [Finset.mem_filter] at ha ⊢
    exact ⟨ha.1, keyLt_trans vals ha.2 hij⟩
  have hss : (Finset.range vals.length).filter (fun a => keyLt vals a i)
      ⊂ (Finset.range vals.length).filter (fun a => keyLt vals a j) := by
    rw [Finset.ssubset_iff_of_subset hsub]
    refine ⟨i, Finset.mem_filter.mpr ⟨Finset.mem_range.mpr hi, hij⟩, ?_⟩
    rw [Finset.mem_filter]
    rintro ⟨_, hk⟩
    exact keyLt_irrefl vals i hk
  have hc := Finset.card_lt_card hss
  rw [rankAt, rankAt]
  have hcq : (((Finset.range vals.length).filter (fun a => keyLt vals a i)).card : ℚ)
      < ((Finset.range vals.length).filter (fun a => keyLt vals a j)).card :=
    Nat.cast_lt.mpr hc
  linarith

/-- The ranks `rank(method=first)` assigns are pairwise distinct. -/
theorem rankFirst_nodup (vals : List ℚ) : (rankFirst vals).Nodup := by
  rw [rankFirst]
  apply List.Nodup.map_on ?_ (List.nodup_range _)
  intro i hi j hj hf
  by_contra hij
  rcases keyLt_total vals hij with h | h
  · exact absurd hf (ne_of_lt (rankAt_lt_rankAt vals (List.mem_range.mp hi) h))
  · exact absurd hf.symm (ne_of_lt (rankAt_lt_rankAt vals (List.mem_range.mp hj) h))

/-- A single value gets rank 1. -/
theorem rankFirst_singleton (x : ℚ) : rankFirst [x] = [1] := by
  rw [rankFirst]
  rw [show ([x] : List ℚ).length = 1 from rfl,
    show List.range 1 = [0] from rfl, List.map_cons, List.map_nil]
  have hempty : (Finset.range ([x] : List ℚ).length).filter (fun j => keyLt [x] j 0) = ∅ := by
    rw [Finset.filter_eq_empty_iff]
    intro a ha
    rw [show ([x] : List ℚ).length = 1 from rfl, Finset.mem_range, Nat.lt_one_iff] at ha
    subst ha
    exact keyLt_irrefl [x] 0
  rw [rankAt, hempty]
  simp

/-- Linear-interpolation quantiles are strictly increasing in the quantile
level on a strictly increasing value list of length at least two. -/
theorem quantileSorted_strictMono (v : List ℚ) (hv : List.Pairwise (· < ·) v)
    (hlen : 2 ≤ v.length) {q q' : ℚ} (hq0 : 0 ≤ q) (hqq : q < q') (hq1 : q' ≤ 1) :
    quantileSorted v q < quantileSorted v q' := by
  have hmono : ∀ (i j : ℕ) (_ : i < v.length) (hj : j < v.length), i < j → v[i] < v[j] :=
    fun i j hi hj hij => List.pairwise_iff_getElem.mp hv i j hi hj hij
  have hmono2 : ∀ (i j : ℕ) (_ : i < v.length) (hj : j < v.length), i ≤ j → v[i] ≤ v[j] := by
    intro i j hi hj hij
    rcases eq_or_lt_of_le hij with h | h
    · subst h; exact le_refl _
    · exact le_of_lt (hmono i j hi hj h)
  have hn2 : (2:ℚ) ≤ (v.length : ℚ) := by exact_mod_cast hlen
  have hN0 : 0 < (v.length : ℚ) - 1 := by linarith
  have hh : q * ((v.length : ℚ) - 1) < q' * ((v.length : ℚ) - 1) :=
    mul_lt_mul_of_pos_right hqq hN0
  have hh0 : 0 ≤ q * ((v.length : ℚ) - 1) := mul_nonneg hq0 hN0.le
  have hh1 : q' * ((v.length : ℚ) - 1) ≤ (v.length : ℚ) - 1 := by nlinarith
  have hf0 : 0 ≤ ⌊q * ((v.length : ℚ) - 1)⌋ := Int.floor_nonneg.mpr hh0
  have hff : ⌊q * ((v.length : ℚ) - 1)⌋ ≤ ⌊q' * ((v.length : ℚ) - 1)⌋ := Int.floor_mono hh.le
  have hfN : ⌊q' * ((v.length : ℚ) - 1)⌋ ≤ (v.length : ℤ) - 1 := by
    have h2 : (⌊q' * ((v.length : ℚ) - 1)⌋ : ℚ) ≤ (v.length : ℚ) - 1 :=
      le_trans (Int.floor_le _) hh1
    have h3 : ((v.length : ℚ) - 1) = (((v.length : ℤ) - 1 : ℤ) : ℚ) := by push_cast; ring
    rw [h3] at h2
    exact_mod_cast h2
  obtain ⟨a, ha⟩ : ∃ a : ℕ, (⌊q * ((v.length : ℚ) - 1)⌋).toNat = a := ⟨_, rfl⟩
  obtain ⟨b, hb⟩ : ∃ b : ℕ, (⌊q' * ((v.length : ℚ) - 1)⌋).toNat = b := ⟨_, rfl⟩
  have haz : (a : ℤ) = ⌊q * ((v.length : ℚ) - 1)⌋ := by
    rw [← ha]; exact Int.toNat_of_nonneg hf0
  have hbz : (b : ℤ) = ⌊q' * ((v.length : ℚ) - 1)⌋ := by
    rw [← hb]; exact Int.toNat_of_nonneg (le_trans hf0 hff)
  have hazq : ((⌊q * ((v.length : ℚ) - 1)⌋ : ℤ) : ℚ) = (a : ℚ) := by exact_mod_cast haz.symm
  have hbzq : ((⌊q' * ((v.length : ℚ) - 1)⌋ : ℤ) : ℚ) = (b : ℚ) := by exact_mod_cast hbz.symm
  have hlenz : (2 : ℤ) ≤ (v.length : ℤ) := by exact_mod_cast hlen
  have hbn : b < v.length := by omega
  have han : a < v.length := by omega
  have hga0 : 0 ≤ q * ((v.length : ℚ) - 1) - (a : ℚ) := by
    have h1 := Int.floor_le (q * ((v.length : ℚ) - 1))
    rw [hazq] at h1
    linarith
  have hga1 : q * ((v.length : ℚ) - 1) - (a : ℚ) < 1 := by
    have h1 := Int.lt_floor_add_one (q * ((v.length : ℚ) - 1))
    rw [show ((⌊q * ((v.length : ℚ) - 1)⌋ : ℤ) : ℚ) + 1 = (a : ℚ) + 1 by rw [hazq]] at h1
    linarith
  have hgb0 : 0 ≤ q' * ((v.length : ℚ) - 1) - (b : ℚ) := by
    have h1 := Int.floor_le (q' * ((v.length : ℚ) - 1))
    rw [hbzq] at h1
    linarith
  have hgab : q * ((v.length : ℚ) - 1) - (a : ℚ) < q' * ((v.length : ℚ) - 1) - (a : ℚ) := by
    linarith
  have he : ∀ p : ℚ, quantileSorted v p
      = v.getD (⌊p * ((v.length : ℚ) - 1)⌋).toNat 0
        + (p * ((v.length : ℚ) - 1) - ((⌊p * ((v.length : ℚ) - 1)⌋ : ℤ) : ℚ))
          * (v.getD ((⌊p * ((v.length : ℚ) - 1)⌋).toNat + 1) 0
            - v.getD (⌊p * ((v.length : ℚ) - 1)⌋).toNat 0) := fun p => rfl
  rw [he q, he q', ha, hb, hazq, hbzq, List.getD_eq_getElem v 0 han,
    List.getD_eq_getElem v 0 hbn]
  by_cases hcase : a = b
  · subst hcase
    have ha1n : a + 1 < v.length := by
      by_contra hcon
      have haz1 : (a : ℤ) = (v.length : ℤ) - 1 := by omega
      have haq : (a : ℚ) = (v.length : ℚ) - 1 := by exact_mod_cast haz1
      have hle : q' * ((v.length : ℚ) - 1) - (a : ℚ) ≤ 0 := by rw [haq]; linarith
      linarith
    rw [List.getD_eq_getElem v 0 ha1n]
    have hd : v[a] < v[a + 1] := hmono a (a + 1) han ha1n (by omega)
    nlinarith [mul_lt_mul_of_pos_right hgab (show (0:ℚ) < v[a + 1] - v[a] from by linarith)]
  · have haltb : a < b := by omega
    have ha1n : a + 1 < v.length := by omega
    rw [List.getD_eq_getElem v 0 ha1n]
    have hd : v[a] < v[a + 1] := hmono a (a + 1) han ha1n (by omega)
    have hstep1 : v[a] + (q * ((v.length : ℚ) - 1) - (a : ℚ)) * (v[a + 1] - v[a])
        < v[a + 1] := by
      nlinarith [mul_lt_mul_of_pos_right hga1 (show (0:ℚ) < v[a + 1] - v[a] from by linarith)]
    have hstep2 : v[a + 1] ≤ v[b] := hmono2 (a + 1) b ha1n hbn (by omega)
    have hstep3 : v[b] ≤ v[b] + (q' * ((v.length : ℚ) - 1) - (b : ℚ))
        * (v.getD (b + 1) 0 - v[b]) := by
      by_cases hb1 : b + 1 < v.length
      · rw [List.getD_eq_getElem v 0 hb1]
        have hd2 : v[b] < v[b + 1] := hmono b (b + 1) hbn hb1 (by omega)
        nlinarith [mul_nonneg hgb0 (show (0:ℚ) ≤ v[b + 1] - v[b] from by linarith)]
      · have hbz1 : (b : ℤ) = (v.length : ℤ) - 1 := by omega
        have hbq : (b : ℚ) = (v.length : ℚ) - 1 := by exact_mod_cast hbz1
        have hG0 : q' * ((v.length : ℚ) - 1) - (b : ℚ) = 0 :=
          le_antisymm (by rw [hbq]; linarith) hgb0
        rw [hG0]
        simp
    linarith

/-- With at least two pairwise-distinct values, the `qcut` quantile edges are
pairwise distinct for any bin count of at least one. -/
theorem quantileEdges_nodup (vals : List ℚ) (hnd : vals.Nodup) (hlen : 2 ≤ vals.length)
    (k : ℕ) (hk : 1 ≤ k) : (quantileEdges vals k).Nodup := by
  have hs : List.Pairwise (· ≤ ·) (vals.insertionSort (· ≤ ·)) :=
    List.sorted_insertionSort _ _
  have hnd2 : (vals.insertionSort (· ≤ ·)).Nodup :=
    (List.perm_insertionSort _ _).symm.nodup hnd
  have hlt : List.Pairwise (· < ·) (vals.insertionSort (· ≤ ·)) :=
    (List.Pairwise.and hs hnd2).imp fun hab => lt_of_le_of_ne hab.1 hab.2
  have hvlen : 2 ≤ (vals.insertionSort (· ≤ ·)).length := by
    rw [List.length_insertionSort]
    exact hlen
  have hk0 : (0:ℚ) < (k : ℚ) := by exact_mod_cast hk
  rw [quantileEdges]
  apply List.Nodup.map_on ?_ (List.nodup_range _)
  intro i hi j hj hfij
  by_contra hij
  have key : ∀ i2 j2 : ℕ, i2 ∈ List.range (k + 1) → j2 ∈ List.range (k + 1) → i2 < j2 →
      quantileSorted (vals.insertionSort (· ≤ ·)) ((i2 : ℚ) / k)
        < quantileSorted (vals.insertionSort (· ≤ ·)) ((j2 : ℚ) / k) := by
    intro i2 j2 hi2 hj2 hij2
    apply quantileSorted_strictMono _ hlt hvlen
    · exact div_nonneg (Nat.cast_nonneg i2) hk0.le
    · rw [div_lt_div_iff_of_pos_right hk0]
      exact_mod_cast hij2
    · rw [div_le_one hk0]
      have := List.mem_range.mp hj2
      exact_mod_cast by omega
  rcases Ne.lt_or_lt hij with h | h
  · exact absurd hfij (ne_of_lt (key i j hi hj h))
  · exact absurd hfij.symm (ne_of_lt (key j i hj hi h))

/-- The equal-frequency edges over the first-method ranks are distinct
exactly when the frame has at least two rows: a single row makes every
quantile of the rank list `[1]` equal to 1, and `qcut` rejects the
duplicate edges. -/
theorem qcut_price_edges_nodup_iff (rows : List SalesRow) (hne : rows ≠ []) :
    (quantileEdges (rankFirst (rows.map (·.Price_USD))) 5).Nodup ↔ 2 ≤ rows.length := by
  by_cases h2 : 2 ≤ rows.length
  · refine ⟨fun _ => h2, fun _ => ?_⟩
    apply quantileEdges_nodup _ (rankFirst_nodup _) _ 5 (by omega)
    rw [rankFirst_length, List.length_map]
    exact h2
  · have h1 : rows.length = 1 := by
      have := List.length_pos.mpr hne
      omega
    obtain ⟨r, hr⟩ := List.length_eq_one.mp h1
    subst hr
    have hedges : quantileEdges (rankFirst ([r].map (·.Price_USD))) 5 = [1, 1, 1, 1, 1, 1] := by
      rw [List.map_cons, List.map_nil, rankFirst_singleton]
      norm_num [quantileEdges, quantileSorted, List.insertionSort, List.orderedInsert,
        List.range_succ]
    rw [hedges]
    constructor
    · intro hcon
      exact absurd (List.mem_cons_self 1 [1, 1, 1, 1]) (List.nodup_cons.mp hcon).1
    · intro hcon
      simp at hcon

/-- Projecting the `Price_Category` column back out of the zipped-and-rebuilt
segmentation rows recovers that column unchanged. -/
theorem map_price_category_zip3 (A : List SalesRow) :
    ∀ (B : List String) (C : List (Option String)) (D : List String),
      B.length = A.length → C.length = A.length → D.length = A.length →
      ((((A.zip B).zip C).zip D).map
        (fun x => (⟨x.1.1.1, x.1.1.2, x.1.2, x.2⟩ : SegmentedRow))).map (·.Price_Category) = B := by
  induction A with
  | nil =>
    intro B C D hB _ _
    rw [List.length_nil, List.length_eq_zero] at hB
    simp [hB]
  | cons a A ih =>
    intro B C D hB hC hD
    cases B with
    | nil => simp at hB
    | cons b B =>
      cases C with
      | nil => simp at hC
      | cons c C =>
        cases D with
        | nil => simp at hD
        | cons d D =>
          simp only [List.zip_cons_cons, List.map_cons]
          rw [ih B C D (by simpa using hB) (by simpa using hC) (by simpa using hD)]

/-- C8: `Price_Category` follows the two-attempt strategy.  The column of the
returned table is `priceCategoryCol`; the equal-frequency attempt — bin the
first-method ranks of `Price_USD` by the 5-quantile edges, labelled Budget,
Value, Mid-Range, Premium, Luxury in increasing price order — is used exactly
when its bin edges are pairwise distinct, which happens exactly when the
frame has at least two rows; in the single-row case (and only then) the code
falls back to 5 equal-width bins over the observed `Price_USD` min/max. -/
theorem price_category_strategy (rows : List SalesRow) (hne : rows ≠ []) :
    (segmentRows rows).map (·.Price_Category) = priceCategoryCol rows
    ∧ ((quantileEdges (rankFirst (rows.map (·.Price_USD))) 5).Nodup ↔ 2 ≤ rows.length)
    ∧ (2 ≤ rows.length →
        priceCategoryCol rows = (rankFirst (rows.map (·.Price_USD))).map
          (fun v => priceLabels.getD
            (searchBin v (quantileEdges (rankFirst (rows.map (·.Price_USD))) 5)) ""))
    ∧ (rows.length = 1 →
        priceCategoryCol rows = (rows.map (·.Price_USD)).map
          (fun p => priceLabels.getD (searchBin p (cutEdges (rows.map (·.Price_USD)))) "")) := by
  refine ⟨?_, qcut_price_edges_nodup_iff rows hne, ?_, ?_⟩
  · exact map_price_category_zip3 rows _ _ _ (priceCategoryCol_length rows)
      (primaryTypeCol_length rows) (purchaseFrequencyCol_length rows)
  · intro h2
    have hnd := (qcut_price_edges_nodup_iff rows hne).mpr h2
    simp only [priceCategoryCol]
    rw [if_pos hnd]
  · intro h1
    have hnd : ¬ (quantileEdges (rankFirst (rows.map (·.Price_USD))) 5).Nodup := by
      intro hn
      have := (qcut_price_edges_nodup_iff rows hne).mp hn
      omega
    simp only [priceCategoryCol]
    rw [if_neg hnd]

/-- Witness for C8: the three-row frame takes the equal-frequency path, and
the one-row frame takes the equal-width fallback. -/
theorem price_category_strategy_witness :
    2 ≤ bugRows.length
    ∧ priceCategoryCol bugRows = (rankFirst (bugRows.map (·.Price_USD))).map
        (fun v => priceLabels.getD
          (searchBin v (quantileEdges (rankFirst (bugRows.map (·.Price_USD))) 5)) "")
    ∧ dfOneYear.rows.length = 1
    ∧ priceCategoryCol dfOneYear.rows = (dfOneYear.rows.map (·.Price_USD)).map
        (fun p => priceLabels.getD
          (searchBin p (cutEdges (dfOneYear.rows.map (·.Price_USD)))) "") := by
  obtain ⟨_, _, hq, _⟩ := price_category_strategy bugRows (by decide)
  obtain ⟨_, _, _, hc⟩ := price_category_strategy dfOneYear.rows (by decide)
  exact ⟨by decide, hq (by decide), by decide, hc (by decide)⟩

end BMW
